import Mathlib

/-!
Shallow embedding of the sgjobutils repository (money parser, text-heuristics
engine, qualification/experience ranking, skill ranking, and the source
transformers) together with theorems settling the specification claims.

Strings are modelled as lists of characters (`Str`), with ASCII-faithful
versions of the Python string primitives used by the code (`lower`, `split`,
`find`, slicing, `isdigit`, `endswith`, ...).  Python floats are modelled
exactly by rationals; Python exceptions by `Option` (`none` = the call raises).
-/

section SgJobUtils

/- The Batteries rational-number operations are `@[irreducible]`, which blocks
`decide` on concrete rational computations; computing with them is exactly what
the evaluation theorems below do, so they are made semireducible locally. -/
attribute [local semireducible] Rat.mul Rat.add Rat.sub Rat.inv Rat.ofScientific

/-- Python strings, modelled as lists of characters. -/
abbrev Str := List Char

/-- Coerce a Lean string literal to the `Str` model. -/
def str (s : String) : Str := s.data

/-- Python `str.lower()` (ASCII case folding, as all inputs of interest are ASCII). -/
def lower (s : Str) : Str := s.map Char.toLower

/-- The whitespace characters recognised by Python `str.split()` / `str.strip()`
(ASCII fragment: space, tab, newline, carriage return, vertical tab, form feed). -/
def isSpc (c : Char) : Bool :=
  c = ' ' || c = '\t' || c = '\n' || c = '\r' || c = Char.ofNat 11 || c = Char.ofNat 12

/-- Helper of `splitWs`: `cur` is the reversed word currently being read. -/
def splitWsAux : Str → Str → List Str
  | [], cur => if cur.isEmpty then [] else [cur.reverse]
  | c :: rest, cur =>
    if isSpc c then
      if cur.isEmpty then splitWsAux rest [] else cur.reverse :: splitWsAux rest []
    else splitWsAux rest (c :: cur)

/-- Python `str.split()` with no argument: split on runs of whitespace,
dropping empty pieces. -/
def splitWs (s : Str) : List Str := splitWsAux s []

/-- Python `str.split(sep)` for a one-character separator: split on every
occurrence, keeping empty pieces. -/
def splitOnChar : Str → Char → List Str
  | [], _ => [[]]
  | a :: rest, c =>
    if a = c then [] :: splitOnChar rest c
    else
      match splitOnChar rest c with
      | [] => [[a]]
      | h :: t => (a :: h) :: t

/-- Python `needle in hay` at a fixed offset: `needle` occurs at position `i`. -/
def strStartsAt (hay needle : Str) (i : Nat) : Bool :=
  needle.isPrefixOf (hay.drop i)

/-- Python `hay.find(needle)`: index of the first occurrence, `none` for Python's -1. -/
def strFind (hay needle : Str) : Option Nat :=
  (List.range (hay.length + 1)).find? (fun i => strStartsAt hay needle i)

/-- Python `needle in hay` (substring containment). -/
def strContains (hay needle : Str) : Bool :=
  (strFind hay needle).isSome

/-- Python `s.endswith(t)`. -/
def strEndsWith (s t : Str) : Bool := t.isSuffixOf s

/-- Python `s.strip()` (both-ends whitespace strip). -/
def pyStrip (s : Str) : Str :=
  ((s.dropWhile isSpc).reverse.dropWhile isSpc).reverse

/-- Python `s.isdigit()` for ASCII text: nonempty and all characters digits. -/
def isDigitStr (s : Str) : Bool := !s.isEmpty && s.all Char.isDigit

/-- Numeric value of a digit string (Python `int(s)` on an `isdigit` string). -/
def digitsToNat (s : Str) : Nat :=
  s.foldl (fun acc c => acc * 10 + (c.toNat - '0'.toNat)) 0

/-- Python slice `s[a:b]` for `0 ≤ a ≤ b` (the only form the code uses). -/
def sliceList (s : Str) (a b : Nat) : Str := (s.drop a).take (b - a)

/-- The longest suffix of `l` whose characters all satisfy `p`. -/
def takeRightWhile (p : Char → Bool) (l : Str) : Str :=
  (l.reverse.takeWhile p).reverse

/-- Python `s.rfind(c)` for a single character: index of the last occurrence. -/
def rfindChar : Str → Char → Option Nat
  | [], _ => none
  | a :: rest, c =>
    match rfindChar rest c with
    | some i => some (i + 1)
    | none => if a = c then some 0 else none

/-! ### money.py -/

/-- money.py `filter_money`: amounts under 100 are replaced by the sentinel -1. -/
def filter_money (amount : Int) : Int :=
  if amount < 100 then -1 else amount

/-- The digit/comma/period character class scanned by `get_money_from_single_word`. -/
def isMoneyChar (c : Char) : Bool := c.isDigit || c = ',' || c = '.'

/-- money.py `comma_removal`: drop every comma. -/
def comma_removal (token : Str) : Str := token.filter (fun c => c ≠ ',')

/-- Python `float(s)` on a comma-free digit/period string: exact rational value;
`none` models the `ValueError` raised when the string has two or more periods.
(The code only calls this after checking `s.replace(".","").isdigit()`.) -/
def pyFloatQ (s : Str) : Option ℚ :=
  match splitOnChar s '.' with
  | [w] => some (digitsToNat w : ℚ)
  | [w, f] => some ((digitsToNat w : ℚ) + (digitsToNat f : ℚ) / (10 ^ f.length : ℚ))
  | _ => none

/-- Final numeric step of `get_money_from_single_word` (money.py lines 72-82):
strip commas, check `isdigit` after removing periods, parse as a float,
apply the k-multiplier, truncate to int.  `none` models a raised `ValueError`. -/
def finishMoney (money_string : Str) (kmultiply : Bool) : Option Int :=
  let stripped := comma_removal money_string
  if isDigitStr (stripped.filter (fun c => c ≠ '.')) then
    match pyFloatQ stripped with
    | some q => some ⌊if kmultiply then q * 1000 else q⌋
    | none => none
  else some (-1)

/-- money.py `get_money_from_single_word`.  `some v` is a normal return of `v`
(the defensive `return False` at a trailing dollar sign is `some 0`, since
Python's `False` behaves as `0` in every caller's comparison); `none` models a
raised exception. -/
def get_money_from_single_word (word0 : Str) : Option Int :=
  let word := pyStrip (lower word0)
  let pos := rfindChar word '$'
  -- Python's defensive check `pos == len(word) - 1` compares the -1 of a
  -- missing dollar sign with len-1, so the empty word also returns False here.
  if (match pos with
      | some p => p + 1 == word.length
      | none => word.length == 0) then some 0
  else
    match pos with
    | some p =>
      let after := word.drop (p + 1)
      let money_string := after.takeWhile isMoneyChar
      let kmultiply := (after.dropWhile isMoneyChar).head? = some 'k'
      finishMoney money_string kmultiply
    | none =>
      if strEndsWith word ['k'] then
        finishMoney (takeRightWhile isMoneyChar (word.take (word.length - 1))) true
      else some (-1)

/-- money.py `get_numeric`. -/
def get_numeric (token0 : Str) : Int :=
  let token := lower token0
  if strEndsWith token ['k'] then
    if isDigitStr token.dropLast then (digitsToNat token.dropLast : Int) * 1000 else -1
  else if isDigitStr token then (digitsToNat token : Int) else -1

/-- money.py `get_money`: parse a token or hyphenated token range, then apply
`filter_money`.  `none` models a raised exception. -/
def get_money (token : Str) : Option Int :=
  let tokens := splitOnChar token '-'
  let final_amt : Option Int :=
    if tokens.length = 2 then
      match get_money_from_single_word (tokens.getD 0 []),
            get_money_from_single_word (tokens.getD 1 []) with
      | some first, some second =>
        if first > 0 ∧ second > 0 then some ((first + second) / 2)
        else if first > 0 then
          let num := get_numeric (tokens.getD 1 [])
          if num > 0 then some ((first + num) / 2) else some (-1)
        else if second > 0 then
          let num := get_numeric (tokens.getD 0 [])
          if num > 0 then some ((num + second) / 2) else some (-1)
        else some (-1)
      | _, _ => none
    else get_money_from_single_word token
  final_amt.map filter_money

/-! ### common.py: constants -/

/-- common.py education constant. -/
def PRIMARY : String := "primary"

/-- common.py education constant. -/
def SECONDARY : String := "secondary"

/-- common.py education constant. -/
def PRIMARY_SECONDARY : String := "primary/secondary"

/-- common.py education constant. -/
def ITE : String := "ITE"

/-- common.py education constant. -/
def DIPLOMA : String := "diploma"

/-- common.py education constant. -/
def DEGREE : String := "degree"

/-- common.py education constant. -/
def NO_EDUCATION : String := "none"

/-- common.py experience-level constant. -/
def ENTRY : String := "entry"

/-- common.py experience-level constant. -/
def MANAGER : String := "manager"

/-- common.py experience-level constant. -/
def PROFESSIONAL : String := "professional"

/-- common.py experience-level constant (the module-level string constant;
the `JobsbankTransformer.EXECUTIVE` list is `JB_EXECUTIVE` below). -/
def EXECUTIVE : String := "executive"

/-- common.py experience-level constant. -/
def NO_EXPERIENCE : String := "none"

/-! ### common.py: education detection -/

/-- The complement word list of `get_education_anchor`. -/
def complements : List Str :=
  [str "responsibilit", str "duties", str "role", str "contact",
   str "function", str "requirement", str "emphasis", str "purpose"]

/-- The window test of common.py `get_education_anchor` at anchor index `i`:
count the tokens of `range(left_bound, right_bound)` containing a complement
word and accept when the count is zero. -/
def eduWindowClean (all : List Str) (i : Nat) : Bool :=
  let left_bound := if i - 2 > 0 then i - 2 else 0
  let right_bound := if i + 3 ≤ all.length then i + 3 else all.length
  ((List.range' left_bound (right_bound - left_bound)).countP
    (fun j => complements.any (fun c => strContains (all.getD j []) c))) == 0

/-- The scan loop of `get_education_anchor`: walk the tokens (with `i` the
absolute index of the head) and decide at the first token containing the anchor. -/
def get_education_anchor_aux (all : List Str) (anchor : Str) : List Str → Nat → Bool
  | [], _ => false
  | t :: rest, i =>
    if strContains t anchor then eduWindowClean all i
    else get_education_anchor_aux all anchor rest (i + 1)

/-- common.py `get_education_anchor`. -/
def get_education_anchor (description_tokens : List Str) (anchor : Str) : Bool :=
  get_education_anchor_aux description_tokens anchor description_tokens 0

/-- common.py `get_education`. -/
def get_education (description : Str) : List String :=
  let description_lower := lower description
  let description_tokens := splitWs description_lower
  (if get_education_anchor description_tokens (str "primary") then [PRIMARY] else []) ++
  (if get_education_anchor description_tokens (str "secondary") then [SECONDARY] else []) ++
  (if strContains description (str "ITE") || strContains description (str "NITEC")
   then [ITE] else []) ++
  (if strContains description_lower (str "diploma") then [DIPLOMA] else []) ++
  (if strContains description_lower (str "degree") || strContains description_lower (str "college")
   then [DEGREE] else [])

/-! ### common.py: qualification and experience ranking -/

/-- common.py `get_highest_qualification`. -/
def get_highest_qualification (qualifications : List String) : String :=
  if qualifications.isEmpty then NO_EDUCATION
  else if qualifications.contains DEGREE then DEGREE
  else if qualifications.contains DIPLOMA then DIPLOMA
  else if qualifications.contains ITE then ITE
  else if qualifications.contains PRIMARY_SECONDARY then PRIMARY_SECONDARY
  else if qualifications.contains SECONDARY then SECONDARY
  else if qualifications.contains PRIMARY then PRIMARY
  else NO_EDUCATION

/-- common.py `get_lowest_qualification`. -/
def get_lowest_qualification (qualifications : List String) : String :=
  if qualifications.isEmpty then NO_EDUCATION
  else if qualifications.contains PRIMARY_SECONDARY then PRIMARY_SECONDARY
  else if qualifications.contains PRIMARY then PRIMARY
  else if qualifications.contains SECONDARY then SECONDARY
  else if qualifications.contains ITE then ITE
  else if qualifications.contains DIPLOMA then DIPLOMA
  else if qualifications.contains DEGREE then DEGREE
  else NO_EDUCATION

/-- common.py `get_minimum_experience_level`. -/
def get_minimum_experience_level (levels : List String) : String :=
  if levels.isEmpty then NO_EXPERIENCE
  else if levels.contains ENTRY then ENTRY
  else if levels.contains MANAGER then MANAGER
  else if levels.contains PROFESSIONAL then PROFESSIONAL
  else if levels.contains EXECUTIVE then EXECUTIVE
  else NO_EXPERIENCE

/-! ### common.py: years of experience -/

/-- common.py `num_from_string`.  Note that `nums` has ten entries starting at
0 while `strings` has nine starting at "one", so the code maps "one" to 0,
"two" to 1, ..., "nine" to 8 (its docstring promises the numeric value). -/
def num_from_string (num_string : Str) : Nat :=
  let nums : List Nat := [0, 1, 2, 3, 4, 5, 6, 7, 8, 9]
  let strings : List Str :=
    [str "one", str "two", str "three", str "four", str "five",
     str "six", str "seven", str "eight", str "nine"]
  match strings.findIdx? (fun s => s == num_string) with
  | some index => nums.getD index 0
  | none => 0

/-- The inner helper `get_last_space_from_pos` of `get_minimum_years_experience`:
called with `start_pos`, walks `last_pos` from `start_pos - 1` down while the
character is not whitespace, and returns `last_pos + 1`. -/
def lastSpaceFrom (s : Str) : Nat → Nat
  | 0 => 0
  | p + 1 => if isSpc (s.getD p ' ') then p + 1 else lastSpaceFrom s p

/-- common.py `get_minimum_years_experience`.  The Python function returns an
int on some branches and a float on the range branch; both are modelled by `ℚ`. -/
def get_minimum_years_experience (description : Str) : ℚ :=
  let description_lower := lower description
  let pos0 :=
    match strFind description_lower (str "year experience") with
    | some p => some p
    | none => strFind description_lower (str "years experience")
  match pos0 with
  | none => 0
  | some 0 => 0
  | some pos =>
    let prev := description_lower.getD (pos - 1) ' '
    let last_pos := lastSpaceFrom description_lower (pos - 1)
    let num := if isSpc prev then sliceList description last_pos (pos - 1)
               else sliceList description last_pos pos
    if num.length = 1 then
      (if isDigitStr num then (digitsToNat num : ℚ) else 1)
    else if num.contains '-' then
      let parts := splitOnChar num '-'
      if parts.length = 2 ∧ isDigitStr (parts.getD 0 []) ∧ isDigitStr (parts.getD 1 []) then
        ((digitsToNat (parts.getD 0 []) : ℚ) + (digitsToNat (parts.getD 1 []) : ℚ)) / 2
      else 1
    else (num_from_string num : ℚ)

/-! ### common.py: shift detection -/

/-- The fuzzy indicator substrings of `is_shift`. -/
def fuzzy_anchors : List Str :=
  [str "shifts", str "rotat", str "work", str "time", str "closing", str "night",
   str "morning", str "duties", str "start", str "end", str "based", str "throughout",
   str "team", str "roster", str "transport", str "timing", str "allowance",
   str "hour", str "each", str "split", str "depending"]

/-- The token-ending indicators of `is_shift`. -/
def end_anchors : List Str := [str "am", str "pm"]

/-- The window test of common.py `is_shift` at anchor index `i`: some token of
`range(left_bound, right_bound)` contains a fuzzy indicator or ends in am/pm. -/
def shiftWindowHit (all : List Str) (i : Nat) : Bool :=
  let left_bound := if i - 3 > 0 then i - 3 else 0
  let right_bound := if i + 4 ≤ all.length then i + 4 else all.length
  let window := List.range' left_bound (right_bound - left_bound)
  fuzzy_anchors.any (fun anchor => window.any (fun j => strContains (all.getD j []) anchor)) ||
  end_anchors.any (fun anchor => window.any (fun j => strEndsWith (all.getD j []) anchor))

/-- The scan loop of `is_shift`: `i` is the absolute index of the head token
and `count` the number of "shift" tokens already seen. -/
def is_shift_aux (all : List Str) : List Str → Nat → Nat → Bool
  | [], _, _ => false
  | t :: rest, i, count =>
    if strContains t (str "shift") then
      if shiftWindowHit all i then true
      else if 2 ≤ count + 1 then true
      else is_shift_aux all rest (i + 1) (count + 1)
    else is_shift_aux all rest (i + 1) count

/-- common.py `is_shift`. -/
def is_shift (description : Str) : Bool :=
  let tokens := splitWs (lower description)
  is_shift_aux tokens tokens 0 0

/-! ### common.py: text cleanup and the engineering flag -/

/-- Membership in Python's `string.printable` (ASCII 32..126 plus tab,
newline, carriage return, vertical tab, form feed). -/
def isPrintableChar (c : Char) : Bool :=
  (32 ≤ c.toNat && c.toNat ≤ 126) || c = '\t' || c = '\n' || c = '\r' ||
  c = Char.ofNat 11 || c = Char.ofNat 12

/-- common.py `clean_non_ascii`. -/
def clean_non_ascii (text : Str) : Str :=
  if text.isEmpty then text else pyStrip (text.filter isPrintableChar)

/-- Scan for the closing `>` of the non-greedy pattern `<.*?>`: consume up to
and including the first `>`, failing at end of string or at a newline
(`.` does not match a newline). -/
def takeToGt : Str → Option Str
  | [] => none
  | '>' :: rest => some rest
  | '\n' :: _ => none
  | _ :: rest => takeToGt rest

/-- One pass of `re.sub('<.*?>', ' ', s)`: at each `<` try to match a minimal
tag and replace it by a space, otherwise emit the character.  The fuel is the
remaining length, which suffices since every step consumes at least one
character. -/
def cleanHtmlGo : Nat → Str → Str
  | 0, _ => []
  | _ + 1, [] => []
  | fuel + 1, c :: rest =>
    if c = '<' then
      match takeToGt rest with
      | some rest2 => ' ' :: cleanHtmlGo fuel rest2
      | none => c :: cleanHtmlGo fuel rest
    else c :: cleanHtmlGo fuel rest

/-- common.py `clean_html`: strip `<...>` markup, then collapse whitespace. -/
def clean_html (html : Str) : Str :=
  if html.isEmpty then html
  else List.intercalate [' '] (splitWs (cleanHtmlGo html.length html))

/-- The description keyword list of `is_engineering`. -/
def requisites : List Str :=
  [str "engine", str "technic", str "mechanic", str "chemical", str "aero",
   str "electronic", str "logistic"]

/-- The title keyword list of `is_engineering`. -/
def title_requisites : List Str :=
  [str "engine", str "technic", str "mechanic", str "chemical", str "aero",
   str "electronic", str "logistic", str "process"]

/-- The anti-requisite list of `is_engineering`. -/
def anti_requisites : List Str := [str "software engine"]

/-- The inner helper `in_list` of `is_engineering`. -/
def in_list (description : Str) (l : List Str) : Bool :=
  l.any (fun token => strContains description token)

/-- common.py `is_engineering`. -/
def is_engineering (title0 description0 : Str) : Bool :=
  let title := lower title0
  let description := lower description0
  if in_list title anti_requisites then false
  else if in_list description anti_requisites then false
  else if in_list title title_requisites then true
  else if in_list description requisites then true
  else false

/-! ### jobsbank.py: skill ranking -/

/-- A skill record: jobsbank.py reads and writes the fields `id`, `skill` and
`confidence` of each skill object (`confidence` is a number, modelled by `ℚ`). -/
structure RawSkill where
  id : Nat
  skill : Str
  confidence : ℚ
deriving DecidableEq

/-- The list comprehension of `sort_skills` over the incremented counts `sc1`:
build the rescored list left to right; `none` models the `IndexError` raised
when a skill id is out of range of the count table. -/
def scoreSkills (sc1 : List Nat) : List RawSkill → Option (List RawSkill)
  | [] => some []
  | s :: rest =>
    match sc1.get? s.id, scoreSkills sc1 rest with
    | some c, some ns =>
      some ({ id := s.id, skill := s.skill, confidence := s.confidence / (c : ℚ) } :: ns)
    | _, _ => none

/-- jobsbank.py `sort_skills`.  The caller's `skill_count` list is state the
Python code could mutate in place, so it is threaded explicitly: the second
component of the result is the table as the call leaves it (the code builds a
new incremented list, so it returns the input unchanged).  Sorting is by
confidence descending; `List.insertionSort` with this total preorder is stable,
like Python's `sorted`. -/
def sort_skills (skills : List RawSkill) (skill_count : List Nat) :
    Option (List RawSkill × List Nat) :=
  let sc1 := skill_count.map (fun n => n + 1)
  match scoreSkills sc1 skills with
  | some new_skills =>
    some (List.insertionSort (fun a b => b.confidence ≤ a.confidence) new_skills, skill_count)
  | none => none

/-- jobsbank.py `get_top_skills`. -/
def get_top_skills (skills : List RawSkill) (n : Int) : List RawSkill :=
  if n < 0 then []
  else if (skills.length : Int) < n then skills
  else skills.take n.toNat

/-! ### transform.py: the canonical row -/

/-- transform.py `Transformer.HEADERS`. -/
def HEADERS : List String :=
  ["source_id", "title", "uen", "company_name", "minimum_qualification",
   "experience_level", "minimum_years_experience", "num_vacancies",
   "salary_max", "salary_min", "salary_avg", "ssoc", "date_posted",
   "date_expire", "date_last_seen", "source", "description", "is_engineering",
   "is_employment_agency", "is_gig", "top_skill_1", "top_skill_2",
   "top_skill_3", "top_skill_4", "top_skill_5"]

/-- A Python value stored in a canonical row: `vnone` is Python `None` (the
"no value" marker), and strings, ints, floats and booleans are kept as
distinct types, as in Python. -/
inductive Value where
  | vnone : Value
  | vstr : Str → Value
  | vint : Int → Value
  | vrat : ℚ → Value
  | vbool : Bool → Value
deriving DecidableEq

/-- A canonical row: an insertion-ordered mapping, as Python's `OrderedDict`. -/
abbrev Row := List (String × Value)

/-- `OrderedDict` assignment `row[k] = v`: overwrite in place if the key is
present (keeping its position), append otherwise. -/
def setKey : Row → String → Value → Row
  | [], k, v => [(k, v)]
  | (k', v') :: rest, k, v =>
    if k' = k then (k', v) :: rest else (k', v') :: setKey rest k v

/-- `OrderedDict` lookup `row[k]`. -/
def rowGet : Row → String → Option Value
  | [], _ => none
  | (k', v) :: rest, k => if k' = k then some v else rowGet rest k

/-- The keys of a row, in order. -/
def rowKeys (r : Row) : List String := r.map Prod.fst

/-- transform.py `Transformer.init_empty_row`: every header mapped to `None`
in header order, then the custom numeric and boolean defaults. -/
def init_empty_row : Row :=
  let row := HEADERS.map (fun h => (h, Value.vnone))
  let row := setKey row "minimum_years_experience" (Value.vint 0)
  let row := setKey row "salary_max" (Value.vint 0)
  let row := setKey row "salary_min" (Value.vint 0)
  let row := setKey row "salary_avg" (Value.vint 0)
  let row := setKey row "ssoc" (Value.vint 0)
  let row := setKey row "is_engineering" (Value.vbool false)
  let row := setKey row "is_employment_agency" (Value.vbool false)
  let row := setKey row "is_gig" (Value.vbool false)
  let row := setKey row "top_skill_1" (Value.vint 0)
  let row := setKey row "top_skill_2" (Value.vint 0)
  let row := setKey row "top_skill_3" (Value.vint 0)
  let row := setKey row "top_skill_4" (Value.vint 0)
  let row := setKey row "top_skill_5" (Value.vint 0)
  row

/-! ### transform.py: JobsbankTransformer -/

/-- transform.py `JobsbankTransformer.ENTRY_LEVEL`. -/
def JB_ENTRY_LEVEL : List Str :=
  [str "Fresh/entry level", str "Non-executive", str "Executive", str "Junior Executive"]

/-- transform.py `JobsbankTransformer.EXECUTIVE`. -/
def JB_EXECUTIVE : List Str := [str "Senior Executive"]

/-- transform.py `JobsbankTransformer.MANAGER`. -/
def JB_MANAGER : List Str := [str "Manager", str "Middle Management", str "Senior Management"]

/-- transform.py `JobsbankTransformer.PROFESSIONAL`. -/
def JB_PROFESSIONAL : List Str := [str "Professional"]

/-- transform.py `JobsbankTransformer.map_position`. -/
def map_position (position : Str) : String :=
  if JB_ENTRY_LEVEL.contains position then "entry"
  else if JB_EXECUTIVE.contains position then "executive"
  else if JB_MANAGER.contains position then "manager"
  else if JB_PROFESSIONAL.contains position then "professional"
  else "manager"

/-- The `postedCompany` object of a Jobsbank raw record (fields read by the
transformer; `none` fields are `.get(..., None)` misses). -/
structure JBCompany where
  uen : Option Str
  name : Option Str
deriving DecidableEq

/-- The `salary` object of a Jobsbank raw record. -/
structure JBSalary where
  maximum : Option Int
  minimum : Option Int
deriving DecidableEq

/-- The `metadata` object of a Jobsbank raw record (all three fields are
accessed with mandatory indexing, so they are structurally required). -/
structure JBMetadata where
  originalPostingDate : Str
  expiryDate : Str
  isPostedOnBehalf : Bool
deriving DecidableEq

/-- A Jobsbank raw record, restricted to the fields `transform_row` reads.
Mandatory-indexed fields (`uuid`, `title`, `minimumYearsExperience`,
`positionLevels`, `metadata`, `skills`) are plain fields; `.get` fields are
`Option`.  `positionLevels` holds each entry's `'position'` string;
`minimumYearsExperience` is `some n` when the raw value is an int, `none` when
it is present but of any other type (the code then falls back to the text
heuristic). -/
structure JBRecord where
  description : Option Str
  otherRequirements : Option Str
  uuid : Str
  title : Str
  postedCompany : Option JBCompany
  salary : Option JBSalary
  minimumYearsExperience : Option Int
  positionLevels : List Str
  numberOfVacancies : Option Int
  ssocCode : Option Int
  metadata : JBMetadata
  skills : List RawSkill
deriving DecidableEq

/-- `None`-defaulted string field as stored into a row. -/
def vOfOptStr : Option Str → Value
  | some s => Value.vstr s
  | none => Value.vnone

/-- The concatenated, cleaned description of a Jobsbank record
(transform.py lines 152-154). -/
def jbDescription (r : JBRecord) : Str :=
  clean_non_ascii (clean_html (r.description.getD [])) ++ [' '] ++
  clean_non_ascii (clean_html (r.otherRequirements.getD []))

/-- The salary block of `JobsbankTransformer.transform_row` (lines 173-180):
`some (maximum, minimum)` exactly when the salary object is present (truthy)
and both bounds are present and truthy (Python's `if maximum and minimum`
treats 0 as absent). -/
def jbSalaryVals (r : JBRecord) : Option (Int × Int) :=
  match r.salary with
  | none => none
  | some s =>
    match s.maximum, s.minimum with
    | some mx, some mn => if mx ≠ 0 ∧ mn ≠ 0 then some (mx, mn) else none
    | _, _ => none

/-- The value the salary block leaves in `row['salary_avg']`: the float mean
when set, the integer default 0 otherwise. -/
def jbSalaryAvgV (r : JBRecord) : Value :=
  match jbSalaryVals r with
  | some (mx, mn) => Value.vrat (((mx : ℚ) + (mn : ℚ)) / 2)
  | none => Value.vint 0

/-- The value stored in `row['minimum_years_experience']` (lines 183-185):
the raw int if the raw field is an int, else the text heuristic. -/
def jbYearsVal (r : JBRecord) : Value :=
  match r.minimumYearsExperience with
  | some n => Value.vint n
  | none => Value.vrat (get_minimum_years_experience (jbDescription r))

/-- Python `v >= q` for a number stored in a row (`False` on the unreachable
non-numeric cases; the code only compares the numeric fields). -/
def vGE (v : Value) (q : ℚ) : Bool :=
  match v with
  | Value.vint n => q ≤ (n : ℚ)
  | Value.vrat x => q ≤ x
  | Value.vbool b => q ≤ (if b then 1 else 0)
  | _ => false

/-- Python `v > q` for a number stored in a row. -/
def vGT (v : Value) (q : ℚ) : Bool :=
  match v with
  | Value.vint n => q < (n : ℚ)
  | Value.vrat x => q < x
  | Value.vbool b => q < (if b then 1 else 0)
  | _ => false

/-- The reduction of the record's mapped position levels (line 188-189). -/
def jbExpLevelRaw (r : JBRecord) : String :=
  get_minimum_experience_level (r.positionLevels.map map_position)

/-- The escalation rule of lines 191-196: an `entry` level with years >= 3 or
average salary > 5000 becomes `executive`. -/
def jbExpLevel (r : JBRecord) : String :=
  if jbExpLevelRaw r == "entry" && vGE (jbYearsVal r) 3 then "executive"
  else if jbExpLevelRaw r == "entry" && vGT (jbSalaryAvgV r) 5000 then "executive"
  else jbExpLevelRaw r

/-- transform.py `JobsbankTransformer.transform_row`.  The caller's
`skill_count` table is threaded like in `sort_skills`; `none` models a raised
exception (an out-of-range skill id inside `sort_skills`, or the `IndexError`
of `skills[0]..skills[4]` when fewer than five skills survive). -/
def JBtransform_row (r : JBRecord) (skill_count : List Nat) : Option (Row × List Nat) :=
  let description := jbDescription r
  let row := init_empty_row
  let row := setKey row "source_id" (Value.vstr r.uuid)
  let row := setKey row "title" (Value.vstr r.title)
  let row :=
    match r.postedCompany with
    | some pc => setKey (setKey row "uen" (vOfOptStr pc.uen)) "company_name" (vOfOptStr pc.name)
    | none => row
  let row := setKey row "minimum_qualification" (Value.vstr (str "None"))
  let row := setKey row "minimum_qualification"
    (Value.vstr (str (get_lowest_qualification (get_education description))))
  let row :=
    match jbSalaryVals r with
    | some (mx, mn) =>
      setKey (setKey (setKey row "salary_max" (Value.vint mx)) "salary_min" (Value.vint mn))
        "salary_avg" (Value.vrat (((mx : ℚ) + (mn : ℚ)) / 2))
    | none => row
  let row := setKey row "minimum_years_experience" (jbYearsVal r)
  let row := setKey row "experience_level" (Value.vstr (str (jbExpLevel r)))
  let row := setKey row "num_vacancies" (Value.vint (r.numberOfVacancies.getD 1))
  let row := setKey row "ssoc"
    (match r.ssocCode with
     | some n => Value.vint n
     | none => Value.vnone)
  let row := setKey row "date_posted" (Value.vstr r.metadata.originalPostingDate)
  let row := setKey row "date_expire" (Value.vstr r.metadata.expiryDate)
  let row := setKey row "date_last_seen" (Value.vstr r.metadata.expiryDate)
  let row := setKey row "source" (Value.vstr (str "jobsbank"))
  let row := setKey row "description" (Value.vstr description)
  let row := setKey row "is_engineering"
    (Value.vint (if is_engineering r.title description then 1 else 0))
  let row := setKey row "is_employment_agency"
    (Value.vint (if r.metadata.isPostedOnBehalf then 1 else 0))
  let row := setKey row "is_gig" (Value.vint 0)
  match sort_skills r.skills skill_count with
  | none => none
  | some (sorted, sc2) =>
    let skills := get_top_skills sorted 5
    match skills.get? 0, skills.get? 1, skills.get? 2, skills.get? 3, skills.get? 4 with
    | some s0, some s1, some s2, some s3, some s4 =>
      some (setKey (setKey (setKey (setKey (setKey row
        "top_skill_1" (Value.vint (s0.id : Int)))
        "top_skill_2" (Value.vint (s1.id : Int)))
        "top_skill_3" (Value.vint (s2.id : Int)))
        "top_skill_4" (Value.vint (s3.id : Int)))
        "top_skill_5" (Value.vint (s4.id : Int)), sc2)
    | _, _, _, _, _ => none

/-! ### transform.py: FastjobsTransformer -/

/-- A Fastjobs raw record, restricted to the fields `transform_row` reads.
`identifierValue` models the mandatory `row['identifier']['value']`;
`hiringOrganizationName` is `some s` when a truthy `hiringOrganization` object
is present and carries a `name` (possibly the empty, falsy string);
`baseSalaryValue` models `row['baseSalary']['value']['value']` when a truthy
`baseSalary` object is present. -/
structure FJRecord where
  description : Option Str
  identifierValue : Str
  title : Str
  uen : Option Str
  hiringOrganizationName : Option Str
  baseSalaryValue : Option Int
  minSalary : Option Int
  posted_on : Str
  expiring_on : Str
deriving DecidableEq

/-- transform.py `FastjobsTransformer.transform_row` (total: its only raw
accesses that can raise are the structurally required fields of `FJRecord`). -/
def FJtransform_row (r : FJRecord) : Row :=
  let description := r.description.getD []
  let row := init_empty_row
  let row := setKey row "source_id" (Value.vstr r.identifierValue)
  let row := setKey row "title" (Value.vstr r.title)
  let row := setKey row "uen" (Value.vstr (r.uen.getD (str "none")))
  let row := setKey row "company_name"
    (match r.hiringOrganizationName with
     | some n => if n.isEmpty then Value.vstr [] else Value.vstr n
     | none => Value.vstr [])
  let row := setKey row "minimum_qualification"
    (Value.vstr (str (get_lowest_qualification (get_education description))))
  let row := setKey row "minimum_years_experience"
    (Value.vrat (get_minimum_years_experience description))
  let row := setKey row "num_vacancies" (Value.vint 1)
  let row := setKey row "experience_level" (Value.vstr (str "none"))
  let row :=
    match r.baseSalaryValue with
    | some v =>
      setKey (setKey (setKey row "salary_min" (Value.vint v)) "salary_max" (Value.vint v))
        "salary_avg" (Value.vint v)
    | none =>
      match r.minSalary with
      | some m =>
        if m ≠ 0 then
          setKey (setKey (setKey row "salary_min" (Value.vint m)) "salary_max" (Value.vint m))
            "salary_avg" (Value.vint m)
        else row
      | none => row
  let row := setKey row "date_posted" (Value.vstr r.posted_on)
  let row := setKey row "date_expire" (Value.vstr r.expiring_on)
  let row := setKey row "source" (Value.vstr (str "fastjobs"))
  let row := setKey row "description" (Value.vstr description)
  let row := setKey row "is_engineering"
    (Value.vint (if is_engineering r.title description then 1 else 0))
  let row := setKey row "is_employment_agency" (Value.vint 0)
  let row := setKey row "is_gig" (Value.vint 0)
  row

/-! ### transform.py: JobscentralTransformer -/

/-- Python `s.replace(old, new)` for a nonempty `old` (every call site below
passes a fixed nonempty literal): scan left to right, replacing each
non-overlapping occurrence.  The fuel is the remaining length, which suffices
since every step consumes at least one character. -/
def strReplaceGo (old new : Str) : Nat → Str → Str
  | 0, _ => []
  | _ + 1, [] => []
  | fuel + 1, c :: rest =>
    if old.isPrefixOf (c :: rest) then
      new ++ strReplaceGo old new fuel ((c :: rest).drop old.length)
    else c :: strReplaceGo old new fuel rest

/-- Python `s.replace(old, new)` (nonempty `old`). -/
def strReplace (s old new : Str) : Str := strReplaceGo old new s.length s

/-- Python `int(s)`: optional surrounding whitespace and sign, then a nonempty
digit string; `none` models the `ValueError` on anything else (ASCII model). -/
def pyInt (s : Str) : Option Int :=
  let t := pyStrip s
  match t with
  | '-' :: rest => if isDigitStr rest then some (-(digitsToNat rest : Int)) else none
  | '+' :: rest => if isDigitStr rest then some ((digitsToNat rest : Int)) else none
  | _ => if isDigitStr t then some ((digitsToNat t : Int)) else none

/-- transform.py `JobscentralTransformer.clean_text`: the four entity
replacements, in source order. -/
def JCclean_text (description : Str) : Str :=
  strReplace (strReplace (strReplace (strReplace description
    (str "&rsquo;") (str "\'")) (str "&hellip;") (str ".")) (str "&nbsp;") (str " "))
    (str "&amp;") (str "&")

/-- transform.py `JobscentralTransformer.jobscentral_education` as a lookup
(`dict.get(code, None)`). -/
def jobscentral_education (code : Str) : Option String :=
  if code = str "drin14" then some DIPLOMA
  else if code = str "dr32" then some DEGREE
  else if code = str "drucdr" then some DEGREE
  else if code = str "drite" then some ITE
  else if code = str "dral" then some DIPLOMA
  else if code = str "drnol" then some PRIMARY_SECONDARY
  else none

/-- transform.py `JobscentralTransformer.jobscentral_experience` as a lookup.
Values are kept as `Str` because the caller treats the result as a Python
string (see `get_minimum_experience_level_str`). -/
def jobscentral_experience (code : Str) : Option Str :=
  if code = str "0" then some (str "entry")
  else if code = str "1" then some (str "manager")
  else if code = str "2" then some (str "manager")
  else if code = str "3" then some (str "manager")
  else if code = str "4" then some (str "executive")
  else if code = str "5" then some (str "entry")
  else none

/-- transform.py `JobscentralTransformer.get_education`: split on commas and
keep the truthy lookups, in order (every mapped value is a nonempty string,
so Python's truthiness test is exactly lookup success). -/
def JCget_education (educational_string : Str) : List String :=
  (splitOnChar educational_string ',').filterMap jobscentral_education

/-- transform.py `JobscentralTransformer.get_experience`.  The code builds a
list but returns the loop variable `pos`, i.e. the lookup of the LAST
comma-separated code (a single string or None, not a list); `split(',')` is
never empty, so `pos` is always assigned. -/
def JCget_experience (position_string : Str) : Option Str :=
  jobscentral_experience ((splitOnChar position_string ',').getLastD [])

/-- common.py `get_minimum_experience_level` as invoked by the Jobscentral
transformer, which passes the single string (or None) that `get_experience`
returns instead of a list: `if not levels` is then emptiness of the string and
`ENTRY in levels` is substring containment. -/
def get_minimum_experience_level_str (levels : Option Str) : String :=
  match levels with
  | none => NO_EXPERIENCE
  | some s =>
    if s.isEmpty then NO_EXPERIENCE
    else if strContains s (str "entry") then ENTRY
    else if strContains s (str "manager") then MANAGER
    else if strContains s (str "professional") then PROFESSIONAL
    else if strContains s (str "executive") then EXECUTIVE
    else NO_EXPERIENCE

/-- transform.py `JobscentralTransformer.get_money` (the `print` side effect
is dropped).  `none` models the `ValueError` of `int()`; the second bound
takes the part before the first space, then before the first period. -/
def JCget_money (money_string : Str) : Option (Int × Int) :=
  let money_parts := splitOnChar money_string '-'
  if money_parts.length = 2 then
    match pyInt (comma_removal (pyStrip (money_parts.getD 0 []))) with
    | none => none
    | some low =>
      match pyInt (comma_removal ((splitOnChar
          ((splitOnChar (pyStrip (money_parts.getD 1 [])) ' ').getD 0 []) '.').getD 0 [])) with
      | none => none
      | some high => some (low, high)
  else if money_parts.length = 1 then
    match pyInt (comma_removal (pyStrip (money_parts.getD 0 []))) with
    | none => none
    | some val => some (val, val)
  else some (0, 0)

/-- A Jobscentral raw record, restricted to the fields `transform_row` reads.
Mandatory-indexed fields are plain; `.get` fields are `Option`. -/
structure JCRecord where
  jobDescription : Option Str
  companyProfiles : Option Str
  id : Str
  jobTitle : Str
  company : Str
  qualification : Str
  position : Str
  payHighLow : Str
  postDate : Str
  endDate : Str
  eaLicenceNo : Option Str
deriving DecidableEq

/-- transform.py `JobscentralTransformer.transform_row`.  `none` models a
raised exception (only `get_money` can raise, and only when `payHighLow`
passes the `isdigit` guard yet `int()` fails, which cannot happen). -/
def JCtransform_row (r : JCRecord) : Option Row :=
  let row := init_empty_row
  let description := clean_non_ascii (JCclean_text (clean_html
    ((r.jobDescription.getD []) ++ [' '] ++ (r.companyProfiles.getD []))))
  let row := setKey row "source_id" (Value.vstr r.id)
  let row := setKey row "title" (Value.vstr r.jobTitle)
  let row := setKey row "uen" (Value.vstr (str "none"))
  let row := setKey row "company_name" (Value.vstr r.company)
  let row := setKey row "minimum_qualification"
    (Value.vstr (str (get_lowest_qualification (JCget_education r.qualification))))
  let row := setKey row "minimum_years_experience"
    (Value.vrat (get_minimum_years_experience description))
  let row := setKey row "experience_level"
    (Value.vstr (str (get_minimum_experience_level_str (JCget_experience r.position))))
  let row := setKey row "num_vacancies" (Value.vint 1)
  match (if isDigitStr r.payHighLow then JCget_money r.payHighLow else some (0, 0)) with
  | none => none
  | some (sal_low, sal_high) =>
    let row := setKey row "salary_min" (Value.vint sal_low)
    let row := setKey row "salary_max" (Value.vint sal_high)
    let row := setKey row "salary_avg" (Value.vint ⌊((sal_high : ℚ) + (sal_low : ℚ)) / 2⌋)
    let row := setKey row "date_posted" (Value.vstr ((splitOnChar r.postDate 'T').getD 0 []))
    let row := setKey row "date_expire" (Value.vstr ((splitOnChar r.endDate 'T').getD 0 []))
    let row := setKey row "source" (Value.vstr (str "jobscentral"))
    let row := setKey row "description" (Value.vstr description)
    let row := setKey row "is_engineering"
      (Value.vint (if is_engineering r.jobTitle (r.jobDescription.getD []) then 1 else 0))
    let row := setKey row "is_employment_agency"
      (Value.vint (if 0 < (r.eaLicenceNo.getD []).length then 1 else 0))
    let row := setKey row "is_gig" (Value.vint 0)
    some row

/-! ### Definitions following the claims' words (for refinement comparison) -/

/-- Modelled from claim C3's words: the same complement-window test, but over
the window "2 tokens before through 3 tokens after" the anchor. -/
def eduWindowClean3 (all : List Str) (i : Nat) : Bool :=
  let left_bound := if i - 2 > 0 then i - 2 else 0
  let right_bound := if i + 4 ≤ all.length then i + 4 else all.length
  ((List.range' left_bound (right_bound - left_bound)).countP
    (fun j => complements.any (fun c => strContains (all.getD j []) c))) == 0

/-- Scan loop of `edu_anchor_claim`. -/
def edu_anchor_claim_aux (all : List Str) (anchor : Str) : List Str → Nat → Bool
  | [], _ => false
  | t :: rest, i =>
    if strContains t anchor then eduWindowClean3 all i
    else edu_anchor_claim_aux all anchor rest (i + 1)

/-- Modelled from claim C3's words: decide at the first token containing the
anchor, accepting exactly when no complement word occurs in the window from 2
tokens before through 3 tokens after it. -/
def edu_anchor_claim (toks : List Str) (anchor : Str) : Bool :=
  edu_anchor_claim_aux toks anchor toks 0

/-- Modelled from claim C4's words: the same indicator-window test, but over
the window "3 tokens before through 4 tokens after" the anchor. -/
def shiftWindowHit4 (all : List Str) (i : Nat) : Bool :=
  let left_bound := if i - 3 > 0 then i - 3 else 0
  let right_bound := if i + 5 ≤ all.length then i + 5 else all.length
  let window := List.range' left_bound (right_bound - left_bound)
  fuzzy_anchors.any (fun anchor => window.any (fun j => strContains (all.getD j []) anchor)) ||
  end_anchors.any (fun anchor => window.any (fun j => strEndsWith (all.getD j []) anchor))

/-- Modelled from claim C4's words: true iff some "shift" token has an
indicator in the window 3 before through 4 after, or "shift" tokens occur at
least twice. -/
def is_shift_claim (description : Str) : Bool :=
  let tokens := splitWs (lower description)
  (List.range tokens.length).any
    (fun j => strContains (tokens.getD j []) (str "shift") && shiftWindowHit4 tokens j) ||
  decide (2 ≤ tokens.countP (fun t => strContains t (str "shift")))

/-- The fixed low-to-high scan order claim C7 states for
`get_lowest_qualification`. -/
def qualOrderLow : List String :=
  [PRIMARY_SECONDARY, PRIMARY, SECONDARY, ITE, DIPLOMA, DEGREE]

/-- The fixed high-to-low scan order claim C7 states for
`get_highest_qualification`. -/
def qualOrderHigh : List String :=
  [DEGREE, DIPLOMA, ITE, PRIMARY_SECONDARY, SECONDARY, PRIMARY]

/-! ### Concrete records used by the witnesses -/

/-- A concrete Jobsbank record: entry-level position, raw integer years 3,
no salary object, five skills with distinct confidences. -/
def rec6 : JBRecord :=
  ⟨none, none, str "uuid-1", str "Clerk", none, none, some 3,
   [str "Fresh/entry level"], none, none,
   ⟨str "2019-01-01", str "2019-02-01", false⟩,
   [⟨0, str "a", 5⟩, ⟨1, str "b", 4⟩, ⟨2, str "c", 3⟩, ⟨3, str "d", 2⟩, ⟨4, str "e", 1⟩]⟩

/-- A zero skill-count table for the five skill ids of `rec6`. -/
def sc6 : List Nat := [0, 0, 0, 0, 0]

/-- The (row, table) pair `JobsbankTransformer.transform_row` produces on
`rec6` and `sc6`. -/
def c6pair : Row × List Nat := (JBtransform_row rec6 sc6).getD ([], [])

/-- A concrete Fastjobs record with no `uen`, no `hiringOrganization` and no
salary data. -/
def fjX : FJRecord :=
  ⟨none, str "id1", str "T", none, none, none, none, str "2020-01-01", str "2020-02-01"⟩

/-- A concrete Jobsbank record identical to `rec6` except that it supplies
only three skills. -/
def rec10 : JBRecord :=
  ⟨none, none, str "uuid-2", str "Clerk", none, none, some 3,
   [str "Fresh/entry level"], none, none,
   ⟨str "2019-01-01", str "2019-02-01", false⟩,
   [⟨0, str "a", 5⟩, ⟨1, str "b", 4⟩, ⟨2, str "c", 3⟩]⟩

/-- The token list of the C3 counterexample: the complement word "role" sits
exactly 3 tokens after the anchor token. -/
def c3toks : List Str := [str "primary", str "aa", str "bb", str "role"]

/-- A concrete Jobscentral record with an ITE qualification code, entry-level
position code and a plain numeric pay field. -/
def jcY : JCRecord :=
  ⟨none, none, str "J1", str "Cook", str "ACME", str "drite", str "0",
   str "2000", str "2019-06-25T00:00:00", str "2019-07-11T00:00:00", none⟩

/-- The row `JobscentralTransformer.transform_row` produces on `jcY`. -/
def jcRow : Row := (JCtransform_row jcY).getD []

/-! ### Helper lemmas -/

theorem rowGet_setKey (r : Row) (k' k : String) (v : Value) :
    rowGet (setKey r k' v) k = if k' = k then some v else rowGet r k := by
  induction r with
  | nil => by_cases h : k' = k <;> simp [setKey, rowGet, h]
  | cons p rest ih =>
    obtain ⟨k0, v0⟩ := p
    by_cases h0 : k0 = k'
    · subst h0
      by_cases h : k0 = k <;> simp [setKey, rowGet, h]
    · by_cases h1 : k0 = k
      · subst h1
        have h2 : k' ≠ k0 := fun hh => h0 hh.symm
        simp [setKey, rowGet, h0, h2]
      · simp [setKey, rowGet, h0, h1, ih]

theorem rowKeys_setKey (r : Row) (k : String) (v : Value) :
    rowKeys (setKey r k v) = if k ∈ rowKeys r then rowKeys r else rowKeys r ++ [k] := by
  induction r with
  | nil => simp [setKey, rowKeys]
  | cons p rest ih =>
    obtain ⟨k0, v0⟩ := p
    by_cases h0 : k0 = k
    · subst h0
      simp [setKey, rowKeys]
    · simp only [setKey, if_neg h0, rowKeys, List.map_cons] at ih ⊢
      rw [ih]
      by_cases hm : k ∈ List.map Prod.fst rest
      · rw [if_pos hm, if_pos (List.mem_cons.mpr (Or.inr hm))]
      · have hnot : k ∉ k0 :: List.map Prod.fst rest := by
          intro hc
          rcases List.mem_cons.mp hc with h | h
          · exact h0 h.symm
          · exact hm h
        rw [if_neg hm, if_neg hnot]
        simp

theorem rowKeys_setKey_headers (r : Row) (k : String) (v : Value)
    (h1 : rowKeys r = HEADERS) (h2 : k ∈ HEADERS) :
    rowKeys (setKey r k v) = HEADERS := by
  rw [rowKeys_setKey, h1, if_pos h2]

theorem filter_money_spec (a : Int) : filter_money a = -1 ∨ 100 ≤ filter_money a := by
  unfold filter_money
  split
  · exact Or.inl rfl
  · next h => exact Or.inr (by omega)

/-! ### Claim theorems -/

/-- Claim C1: the money parser meets the spec's test vectors, and in general
every amount it returns is either the sentinel -1 or at least 100. -/
theorem C1_money_values :
    get_money (str "$3,000") = some 3000 ∧
    get_money (str "5k") = some 5000 ∧
    get_money (str "3k-5k") = some 4000 ∧
    get_money (str "50") = some (-1) ∧
    get_money (str "abc") = some (-1) ∧
    ∀ (t : Str) (v : Int), get_money t = some v → v = -1 ∨ 100 ≤ v := by
  refine ⟨by decide, by decide, by decide, by decide, by decide, ?_⟩
  intro t v h
  simp only [get_money] at h
  rw [Option.map_eq_some'] at h
  obtain ⟨a, -, rfl⟩ := h
  exact filter_money_spec a

theorem C1_money_values_witness : (3000 : Int) = -1 ∨ (100 : Int) ≤ 3000 :=
  C1_money_values.2.2.2.2.2 (str "$3,000") 3000 C1_money_values.1

/-- Claim C2 (code bug): on "with one year experience" the code returns 0,
not the claimed 1, because num_from_string pairs the ten-element list
[0,...,9] with the nine words one..nine and so maps "one" to 0. -/
theorem C2_years_bug_eval :
    get_minimum_years_experience (str "with one year experience") = 0 ∧
    num_from_string (str "one") = 0 ∧ num_from_string (str "nine") = 8 := by
  refine ⟨by decide, by decide, by decide⟩

/-- Claim C5: the engineering flag. -/
theorem C5_engineering :
    (∀ title description : Str,
      ((strContains (lower title) (str "software engine") = true ∨
        strContains (lower description) (str "software engine") = true) →
        is_engineering title description = false) ∧
      (strContains (lower title) (str "software engine") = false →
       strContains (lower description) (str "software engine") = false →
        (is_engineering title description = true ↔
          ((∃ k ∈ title_requisites, strContains (lower title) k = true) ∨
           (∃ k ∈ requisites, strContains (lower description) k = true))))) ∧
    is_engineering (str "Software Engineer") (str "mechanical duties") = false ∧
    is_engineering (str "Mechanical Technician") [] = true := by
  refine ⟨?_, by decide, by decide⟩
  intro title description
  constructor
  · intro h
    rcases h with h | h <;>
      simp [is_engineering, in_list, anti_requisites, h]
  · intro h1 h2
    simp [is_engineering, in_list, anti_requisites, h1, h2, List.any_eq_true]

/-- Claim C7: qualification ranking. -/
theorem C7_qualification_ranking :
    (∀ l : List String,
      get_lowest_qualification l =
        (qualOrderLow.find? (fun q => l.contains q)).getD NO_EDUCATION ∧
      get_highest_qualification l =
        (qualOrderHigh.find? (fun q => l.contains q)).getD NO_EDUCATION) ∧
    get_lowest_qualification [DIPLOMA, DEGREE] = DIPLOMA ∧
    get_highest_qualification [DIPLOMA, DEGREE] = DEGREE ∧
    get_lowest_qualification [] = NO_EDUCATION ∧
    get_highest_qualification [] = NO_EDUCATION := by
  refine ⟨?_, by decide, by decide, by decide, by decide⟩
  intro l
  cases l with
  | nil => exact ⟨by decide, by decide⟩
  | cons a as =>
    constructor <;>
    · simp only [get_lowest_qualification, get_highest_qualification, qualOrderLow, qualOrderHigh,
        List.isEmpty_cons, Bool.false_eq_true, if_false, List.find?]
      cases h1 : (a :: as).contains PRIMARY_SECONDARY <;>
      cases h2 : (a :: as).contains PRIMARY <;>
      cases h3 : (a :: as).contains SECONDARY <;>
      cases h4 : (a :: as).contains ITE <;>
      cases h5 : (a :: as).contains DIPLOMA <;>
      cases h6 : (a :: as).contains DEGREE <;>
        simp_all

theorem edu_aux_notfound (all : List Str) (anchor : Str) :
    ∀ (l : List Str) (i0 : Nat),
      (∀ k, k < l.length → strContains (l.getD k []) anchor = false) →
      get_education_anchor_aux all anchor l i0 = false := by
  intro l
  induction l with
  | nil => intro i0 _; rfl
  | cons t rest ih =>
    intro i0 h
    have ht : strContains t anchor = false := by
      have := h 0 (by simp)
      simpa using this
    rw [get_education_anchor_aux, ht]
    simp only [Bool.false_eq_true, if_false]
    exact ih (i0 + 1) (fun k hk => by simpa using h (k + 1) (by simpa using hk))

theorem edu_aux_first (all : List Str) (anchor : Str) :
    ∀ (l : List Str) (i0 m : Nat),
      m < l.length → strContains (l.getD m []) anchor = true →
      (∀ k, k < m → strContains (l.getD k []) anchor = false) →
      get_education_anchor_aux all anchor l i0 = eduWindowClean all (i0 + m) := by
  intro l
  induction l with
  | nil => intro i0 m hm; simp at hm
  | cons t rest ih =>
    intro i0 m hm hc hk
    by_cases ht : strContains t anchor = true
    · have hm0 : m = 0 := by
        by_contra hne
        have h0 := hk 0 (Nat.pos_of_ne_zero hne)
        rw [List.getD_cons_zero] at h0
        rw [ht] at h0
        simp at h0
      subst hm0
      rw [get_education_anchor_aux, ht]
      simp
    · have ht' : strContains t anchor = false := Bool.not_eq_true _ |>.mp ht
      cases m with
      | zero =>
        rw [List.getD_cons_zero] at hc
        rw [hc] at ht'
        exact absurd ht' (by simp)
      | succ m' =>
        rw [get_education_anchor_aux, ht']
        simp only [Bool.false_eq_true, if_false]
        have hres := ih (i0 + 1) m' (by simpa using hm) (by simpa using hc)
          (fun k hk' => by simpa using hk (k + 1) (by omega))
        rw [hres]
        have : i0 + 1 + m' = i0 + (m' + 1) := by omega
        rw [this]

theorem eduWindowClean_iff (all : List Str) (i : Nat) :
    eduWindowClean all i = true ↔
      ∀ j, i - 2 ≤ j → j ≤ i + 2 → j < all.length →
        ∀ c ∈ complements, strContains (all.getD j []) c = false := by
  unfold eduWindowClean
  rw [show (if i - 2 > 0 then i - 2 else 0) = i - 2 by split <;> omega]
  rw [show (if i + 3 ≤ all.length then i + 3 else all.length) = min (i + 3) all.length by
    split <;> omega]
  rw [beq_iff_eq, List.countP_eq_zero]
  constructor
  · intro h j h1 h2 h3 c hc
    have hj : j ∈ List.range' (i - 2) (min (i + 3) all.length - (i - 2)) := by
      rw [List.mem_range'_1]
      omega
    have hnot := h j hj
    rw [List.any_eq_true] at hnot
    push_neg at hnot
    have := hnot c hc
    cases hb : strContains (all.getD j []) c
    · rfl
    · exact absurd hb this
  · intro h a ha
    rw [List.mem_range'_1] at ha
    rw [List.any_eq_true]
    rintro ⟨c, hc, hb⟩
    have := h a (by omega) (by omega) (by omega) c hc
    rw [this] at hb
    exact absurd hb (by simp)

/-- Claim C3 (amended): the education anchor decides at the first token
containing the anchor, and accepts exactly when no complement word occurs in
the window from 2 tokens before through 2 tokens after that token. -/
theorem C3_education_window :
    ∀ (toks : List Str) (anchor : Str),
      ((∀ k, k < toks.length → strContains (toks.getD k []) anchor = false) →
        get_education_anchor toks anchor = false) ∧
      (∀ i, i < toks.length → strContains (toks.getD i []) anchor = true →
        (∀ k, k < i → strContains (toks.getD k []) anchor = false) →
        (get_education_anchor toks anchor = true ↔
          ∀ j, i - 2 ≤ j → j ≤ i + 2 → j < toks.length →
            ∀ c ∈ complements, strContains (toks.getD j []) c = false)) := by
  intro toks anchor
  constructor
  · intro h
    exact edu_aux_notfound toks anchor toks 0 h
  · intro i hi hc hk
    unfold get_education_anchor
    rw [edu_aux_first toks anchor toks 0 i hi hc hk]
    simpa using eduWindowClean_iff toks i

/-- Claim C3 counterexample: with the complement "role" exactly 3 tokens after
the anchor, the code accepts while the claim's window (through 3 after) rejects. -/
theorem C3_education_window_cex :
    get_education_anchor c3toks (str "primary") = true ∧
    edu_anchor_claim c3toks (str "primary") = false := by
  exact ⟨by decide, by decide⟩

theorem C3_education_window_witness :
    get_education_anchor [str "primary", str "aa"] (str "primary") = true :=
  ((C3_education_window [str "primary", str "aa"] (str "primary")).2 0 (by decide) (by decide)
    (fun k hk => absurd hk (Nat.not_lt_zero k))).mpr
    (by intro j h1 h2 h3; interval_cases j <;> decide)

theorem shiftWindowHit_iff (all : List Str) (i : Nat) :
    shiftWindowHit all i = true ↔
      ∃ k, k < all.length ∧ i - 3 ≤ k ∧ k ≤ i + 3 ∧
        ((∃ a ∈ fuzzy_anchors, strContains (all.getD k []) a = true) ∨
         (∃ a ∈ end_anchors, strEndsWith (all.getD k []) a = true)) := by
  unfold shiftWindowHit
  rw [show (if i - 3 > 0 then i - 3 else 0) = i - 3 by split <;> omega]
  rw [show (if i + 4 ≤ all.length then i + 4 else all.length) = min (i + 4) all.length by
    split <;> omega]
  simp only [Bool.or_eq_true, List.any_eq_true, List.mem_range'_1]
  constructor
  · rintro (⟨a, ha, j, ⟨hj1, hj2⟩, hb⟩ | ⟨a, ha, j, ⟨hj1, hj2⟩, hb⟩)
    · exact ⟨j, by omega, by omega, by omega, Or.inl ⟨a, ha, hb⟩⟩
    · exact ⟨j, by omega, by omega, by omega, Or.inr ⟨a, ha, hb⟩⟩
  · rintro ⟨k, h1, h2, h3, (⟨a, ha, hb⟩ | ⟨a, ha, hb⟩)⟩
    · exact Or.inl ⟨a, ha, k, ⟨by omega, by omega⟩, hb⟩
    · exact Or.inr ⟨a, ha, k, ⟨by omega, by omega⟩, hb⟩

theorem shift_aux_iff (all : List Str) :
    ∀ (l : List Str) (i0 c : Nat), c ≤ 1 →
      (is_shift_aux all l i0 c = true ↔
        (∃ m, m < l.length ∧ strContains (l.getD m []) (str "shift") = true ∧
          shiftWindowHit all (i0 + m) = true) ∨
        2 ≤ c + l.countP (fun t => strContains t (str "shift"))) := by
  intro l
  induction l with
  | nil =>
    intro i0 c hc
    simp [is_shift_aux]
    omega
  | cons t rest ih =>
    intro i0 c hc
    rw [is_shift_aux]
    by_cases ht : strContains t (str "shift") = true
    · rw [if_pos ht]
      by_cases hw : shiftWindowHit all i0 = true
      · rw [if_pos hw]
        constructor
        · intro _
          exact Or.inl ⟨0, by simp, by simpa using ht, by simpa using hw⟩
        · intro _; rfl
      · rw [if_neg hw]
        by_cases hc1 : c = 1
        · subst hc1
          rw [if_pos (by omega)]
          constructor
          · intro _
            right
            have hcc : List.countP (fun t => strContains t (str "shift")) (t :: rest) =
                List.countP (fun t => strContains t (str "shift")) rest + 1 := by
              rw [List.countP_cons]; simp [ht]
            omega
          · intro _; rfl
        · have hc0 : c = 0 := by omega
          subst hc0
          rw [if_neg (by omega)]
          rw [ih (i0 + 1) 1 (by omega)]
          constructor
          · rintro (⟨m, hm, hcon, hhit⟩ | hcount)
            · refine Or.inl ⟨m + 1, by simpa using hm, by simpa using hcon, ?_⟩
              rw [show i0 + (m + 1) = i0 + 1 + m by omega]
              exact hhit
            · right
              have hcc : List.countP (fun t => strContains t (str "shift")) (t :: rest) =
                  List.countP (fun t => strContains t (str "shift")) rest + 1 := by
                rw [List.countP_cons]; simp [ht]
              omega
          · rintro (⟨m, hm, hcon, hhit⟩ | hcount)
            · cases m with
              | zero =>
                rw [Nat.add_zero] at hhit
                exact absurd hhit hw
              | succ m' =>
                refine Or.inl ⟨m', by simpa using hm, by simpa using hcon, ?_⟩
                rw [show i0 + 1 + m' = i0 + (m' + 1) by omega]
                exact hhit
            · right
              have hcc : List.countP (fun t => strContains t (str "shift")) (t :: rest) =
                  List.countP (fun t => strContains t (str "shift")) rest + 1 := by
                rw [List.countP_cons]; simp [ht]
              omega
    · have ht' : strContains t (str "shift") = false := by simpa using ht
      rw [if_neg ht]
      rw [ih (i0 + 1) c hc]
      constructor
      · rintro (⟨m, hm, hcon, hhit⟩ | hcount)
        · refine Or.inl ⟨m + 1, by simpa using hm, by simpa using hcon, ?_⟩
          rw [show i0 + (m + 1) = i0 + 1 + m by omega]
          exact hhit
        · right
          have hcc : List.countP (fun t => strContains t (str "shift")) (t :: rest) =
              List.countP (fun t => strContains t (str "shift")) rest := by
            rw [List.countP_cons]; simp [ht']
          omega
      · rintro (⟨m, hm, hcon, hhit⟩ | hcount)
        · cases m with
          | zero =>
            rw [List.getD_cons_zero] at hcon
            rw [hcon] at ht'
            exact absurd ht' (by simp)
          | succ m' =>
            refine Or.inl ⟨m', by simpa using hm, by simpa using hcon, ?_⟩
            rw [show i0 + 1 + m' = i0 + (m' + 1) by omega]
            exact hhit
        · right
          have hcc : List.countP (fun t => strContains t (str "shift")) (t :: rest) =
              List.countP (fun t => strContains t (str "shift")) rest := by
            rw [List.countP_cons]; simp [ht']
          omega

/-- Claim C4 (amended): shift detection. -/
theorem C4_shift_detection :
    (∀ description : Str,
      is_shift description = true ↔
        (∃ j, j < (splitWs (lower description)).length ∧
          strContains ((splitWs (lower description)).getD j []) (str "shift") = true ∧
          shiftWindowHit (splitWs (lower description)) j = true) ∨
        2 ≤ (splitWs (lower description)).countP (fun t => strContains t (str "shift"))) ∧
    (∀ (toks : List Str) (i : Nat),
      shiftWindowHit toks i = true ↔
        ∃ k, k < toks.length ∧ i - 3 ≤ k ∧ k ≤ i + 3 ∧
          ((∃ a ∈ fuzzy_anchors, strContains (toks.getD k []) a = true) ∨
           (∃ a ∈ end_anchors, strEndsWith (toks.getD k []) a = true))) ∧
    is_shift (str "work shift starting at 7am") = true ∧
    is_shift (str "the shift the shift") = true ∧
    is_shift (str "shift") = false := by
  refine ⟨?_, shiftWindowHit_iff, by decide, by decide, by decide⟩
  intro d
  unfold is_shift
  have h := shift_aux_iff (splitWs (lower d)) (splitWs (lower d)) 0 0 (by omega)
  simpa using h

/-- Claim C4 counterexample: a time token exactly 4 after the anchor is outside
the code's window, so the code answers false where the claim answers true. -/
theorem C4_shift_detection_cex :
    is_shift (str "shift a b c 7am") = false ∧
    is_shift_claim (str "shift a b c 7am") = true := ⟨by decide, by decide⟩

theorem scoreSkills_length (sc1 : List Nat) :
    ∀ {l : List RawSkill} {ns : List RawSkill},
      scoreSkills sc1 l = some ns → ns.length = l.length := by
  intro l
  induction l with
  | nil => intro ns h; simp [scoreSkills] at h; simp [← h]
  | cons s rest ih =>
    intro ns h
    rw [scoreSkills] at h
    rcases hg : sc1.get? s.id with _ | c <;> rw [hg] at h
    · simp at h
    · rcases hr : scoreSkills sc1 rest with _ | ns' <;> rw [hr] at h
      · simp at h
      · simp only [Option.some.injEq] at h
        rw [← h]
        simp [ih hr]

theorem sort_skills_state (skills : List RawSkill) (skill_count : List Nat)
    (res : List RawSkill) (sc2 : List Nat)
    (h : sort_skills skills skill_count = some (res, sc2)) : sc2 = skill_count := by
  simp only [sort_skills] at h
  rcases hsc : scoreSkills (skill_count.map fun n => n + 1) skills with _ | ns <;>
    rw [hsc] at h
  · simp at h
  · simp only [Option.some.injEq, Prod.mk.injEq] at h
    exact h.2.symm

theorem sort_skills_length (skills : List RawSkill) (skill_count : List Nat)
    (res : List RawSkill) (sc2 : List Nat)
    (h : sort_skills skills skill_count = some (res, sc2)) : res.length = skills.length := by
  simp only [sort_skills] at h
  rcases hsc : scoreSkills (skill_count.map fun n => n + 1) skills with _ | ns <;>
    rw [hsc] at h
  · simp at h
  · simp only [Option.some.injEq, Prod.mk.injEq] at h
    rw [← h.1, List.length_insertionSort]
    exact scoreSkills_length _ hsc

/-- Claim C9: sort_skills returns the caller's table unchanged, and the
Jobsbank transform is idempotent: rerunning it on the state it leaves behind
gives the identical row and state. -/
theorem C9_idempotent :
    (∀ (skills : List RawSkill) (skill_count : List Nat) res sc2,
      sort_skills skills skill_count = some (res, sc2) → sc2 = skill_count) ∧
    (∀ (r : JBRecord) (sc : List Nat) out sc2,
      JBtransform_row r sc = some (out, sc2) →
      sc2 = sc ∧ JBtransform_row r sc2 = some (out, sc2)) := by
  refine ⟨sort_skills_state, ?_⟩
  intro r sc out sc2 h
  have h2 := h
  simp only [JBtransform_row] at h2
  split at h2
  · exact absurd h2 (by simp)
  · next sorted sct heq =>
    have hsct : sct = sc := sort_skills_state _ _ _ _ heq
    subst hsct
    split at h2
    · simp only [Option.some.injEq, Prod.mk.injEq] at h2
      obtain ⟨-, hsc2⟩ := h2
      subst hsc2
      exact ⟨rfl, h⟩
    · exact absurd h2 (by simp)

theorem C9_idempotent_witness :
    c6pair.2 = sc6 ∧ JBtransform_row rec6 c6pair.2 = some (c6pair.1, c6pair.2) :=
  C9_idempotent.2 rec6 sc6 c6pair.1 c6pair.2 (by decide)

/-- Claim C10: a Jobsbank record with fewer than five skills makes
transform_row fail with the out-of-bounds indexing of top_skill_1..5. -/
theorem C10_skills_underflow :
    ∀ (r : JBRecord) (sc : List Nat), r.skills.length < 5 →
      JBtransform_row r sc = none := by
  intro r sc h5
  simp only [JBtransform_row]
  split
  · rfl
  · next sorted sct heq =>
    have hlen : sorted.length = r.skills.length := sort_skills_length _ _ _ _ heq
    have htop : get_top_skills sorted 5 = sorted := by
      unfold get_top_skills
      rw [if_neg (by omega), if_pos (by exact_mod_cast (by omega : sorted.length < 5))]
    rw [htop]
    have h4 : sorted.get? 4 = none := List.get?_eq_none.mpr (by omega)
    split
    · next s0 s1 s2 s3 s4 heq0 heq1 heq2 heq3 heq4 =>
      rw [h4] at heq4
      exact absurd heq4 (by simp)
    · rfl

theorem C10_skills_underflow_witness : JBtransform_row rec10 sc6 = none :=
  C10_skills_underflow rec10 sc6 (by decide)

theorem rowGet_init_salary_avg : rowGet init_empty_row "salary_avg" = some (Value.vint 0) := by
  decide

set_option maxHeartbeats 1600000 in
/-- Claim C6: the Jobsbank entry-to-executive escalation rule. -/
theorem C6_entry_escalation :
    ∀ (r : JBRecord) (sc : List Nat) (out : Row) (sc2 : List Nat),
      JBtransform_row r sc = some (out, sc2) →
      ∀ yv av, rowGet out "minimum_years_experience" = some yv →
        rowGet out "salary_avg" = some av →
        rowGet out "experience_level" = some (Value.vstr (str
          (if get_minimum_experience_level (r.positionLevels.map map_position) = "entry"
              ∧ (vGE yv 3 = true ∨ vGT av 5000 = true)
           then "executive"
           else get_minimum_experience_level (r.positionLevels.map map_position)))) := by
  intro r sc out sc2 h yv av hy ha
  simp only [JBtransform_row] at h
  split at h
  · exact absurd h (by simp)
  · next sorted sct heq =>
    split at h
    · next s0 s1 s2 s3 s4 heq0 heq1 heq2 heq3 heq4 =>
      simp only [Option.some.injEq, Prod.mk.injEq] at h
      obtain ⟨hout, -⟩ := h
      subst hout
      rcases hsal : jbSalaryVals r with _ | ⟨mx, mn⟩ <;>
        rcases hpc : r.postedCompany with _ | pc <;>
        simp only [hsal, hpc] at hy ha ⊢ <;>
        · simp only [rowGet_setKey, String.reduceEq, reduceIte, rowGet_init_salary_avg,
            Option.some.injEq] at hy ha ⊢
          have hAv : jbSalaryAvgV r = av := by
            simp only [jbSalaryAvgV, hsal]
            exact ha
          subst hy
          rw [Value.vstr.injEq]
          rw [← hAv]
          have hlev : jbExpLevel r =
              (if get_minimum_experience_level (r.positionLevels.map map_position) = "entry"
                  ∧ (vGE (jbYearsVal r) 3 = true ∨ vGT (jbSalaryAvgV r) 5000 = true)
               then "executive"
               else get_minimum_experience_level (r.positionLevels.map map_position)) := by
            unfold jbExpLevel jbExpLevelRaw
            by_cases hE : get_minimum_experience_level (r.positionLevels.map map_position)
                = "entry" <;>
              cases hb1 : vGE (jbYearsVal r) 3 <;> cases hb2 : vGT (jbSalaryAvgV r) 5000 <;>
              simp [hE, hb1, hb2]
          rw [hlev]
    · exact absurd h (by simp)

theorem C6_entry_escalation_witness :
    rowGet c6pair.1 "experience_level" = some (Value.vstr (str
      (if get_minimum_experience_level (rec6.positionLevels.map map_position) = "entry"
          ∧ (vGE (Value.vint 3) 3 = true ∨ vGT (Value.vint 0) 5000 = true)
       then "executive"
       else get_minimum_experience_level (rec6.positionLevels.map map_position)))) :=
  C6_entry_escalation rec6 sc6 c6pair.1 c6pair.2 (by decide) (Value.vint 3) (Value.vint 0)
    (by decide) (by decide)

set_option maxHeartbeats 1600000 in
/-- Claim C8 (amended): the canonical row schema and defaults, for all three
transformer variants (Jobsbank, Fastjobs, Jobscentral). -/
theorem C8_schema :
    init_empty_row =
      [("source_id", Value.vnone), ("title", Value.vnone), ("uen", Value.vnone),
       ("company_name", Value.vnone), ("minimum_qualification", Value.vnone),
       ("experience_level", Value.vnone), ("minimum_years_experience", Value.vint 0),
       ("num_vacancies", Value.vnone), ("salary_max", Value.vint 0),
       ("salary_min", Value.vint 0), ("salary_avg", Value.vint 0), ("ssoc", Value.vint 0),
       ("date_posted", Value.vnone), ("date_expire", Value.vnone),
       ("date_last_seen", Value.vnone), ("source", Value.vnone), ("description", Value.vnone),
       ("is_engineering", Value.vbool false), ("is_employment_agency", Value.vbool false),
       ("is_gig", Value.vbool false), ("top_skill_1", Value.vint 0),
       ("top_skill_2", Value.vint 0), ("top_skill_3", Value.vint 0),
       ("top_skill_4", Value.vint 0), ("top_skill_5", Value.vint 0)] ∧
    Value.vnone ≠ Value.vstr (str "") ∧
    (∀ (r : JBRecord) (sc : List Nat) (out : Row) (sc2 : List Nat),
      JBtransform_row r sc = some (out, sc2) → rowKeys out = HEADERS) ∧
    (∀ fr : FJRecord, rowKeys (FJtransform_row fr) = HEADERS) ∧
    (∀ fr : FJRecord,
      rowGet (FJtransform_row fr) "ssoc" = some (Value.vint 0) ∧
      rowGet (FJtransform_row fr) "date_last_seen" = some Value.vnone ∧
      rowGet (FJtransform_row fr) "top_skill_1" = some (Value.vint 0) ∧
      rowGet (FJtransform_row fr) "top_skill_2" = some (Value.vint 0) ∧
      rowGet (FJtransform_row fr) "top_skill_3" = some (Value.vint 0) ∧
      rowGet (FJtransform_row fr) "top_skill_4" = some (Value.vint 0) ∧
      rowGet (FJtransform_row fr) "top_skill_5" = some (Value.vint 0)) ∧
    (∀ (jr : JCRecord) (out : Row), JCtransform_row jr = some out →
      rowKeys out = HEADERS ∧
      rowGet out "ssoc" = some (Value.vint 0) ∧
      rowGet out "date_last_seen" = some Value.vnone ∧
      rowGet out "top_skill_1" = some (Value.vint 0) ∧
      rowGet out "top_skill_2" = some (Value.vint 0) ∧
      rowGet out "top_skill_3" = some (Value.vint 0) ∧
      rowGet out "top_skill_4" = some (Value.vint 0) ∧
      rowGet out "top_skill_5" = some (Value.vint 0)) := by
  refine ⟨by decide, by decide, ?_, ?_, ?_, ?_⟩
  · intro r sc out sc2 h
    simp only [JBtransform_row] at h
    split at h
    · exact absurd h (by simp)
    · next sorted sct heq =>
      split at h
      · next s0 s1 s2 s3 s4 h0 h1 h2 h3 h4 =>
        simp only [Option.some.injEq, Prod.mk.injEq] at h
        obtain ⟨hout, -⟩ := h
        subst hout
        rcases hsal : jbSalaryVals r with _ | ⟨mx, mn⟩ <;>
          rcases hpc : r.postedCompany with _ | pc <;>
          simp only [hsal, hpc] <;>
          · repeat refine rowKeys_setKey_headers _ _ _ ?_ (by decide)
            decide
      · exact absurd h (by simp)
  · intro fr
    rcases hbs : fr.baseSalaryValue with _ | v
    · rcases hms : fr.minSalary with _ | m
      · simp only [FJtransform_row, hbs, hms]
        repeat refine rowKeys_setKey_headers _ _ _ ?_ (by decide)
        decide
      · simp only [FJtransform_row, hbs, hms]
        split_ifs with hm <;>
          · repeat refine rowKeys_setKey_headers _ _ _ ?_ (by decide)
            decide
    · simp only [FJtransform_row, hbs]
      repeat refine rowKeys_setKey_headers _ _ _ ?_ (by decide)
      decide
  · intro fr
    rcases hbs : fr.baseSalaryValue with _ | v
    · rcases hms : fr.minSalary with _ | m
      · simp only [FJtransform_row, hbs, hms, rowGet_setKey, String.reduceEq, reduceIte]
        exact ⟨by decide, by decide, by decide, by decide, by decide, by decide, by decide⟩
      · simp only [FJtransform_row, hbs, hms]
        split_ifs with hm <;>
          · simp only [rowGet_setKey, String.reduceEq, reduceIte]
            exact ⟨by decide, by decide, by decide, by decide, by decide, by decide, by decide⟩
    · simp only [FJtransform_row, hbs, rowGet_setKey, String.reduceEq, reduceIte]
      exact ⟨by decide, by decide, by decide, by decide, by decide, by decide, by decide⟩
  · intro jr out h
    simp only [JCtransform_row] at h
    split at h
    · exact absurd h (by simp)
    · next sal_low sal_high heq =>
      simp only [Option.some.injEq] at h
      subst h
      constructor
      · repeat refine rowKeys_setKey_headers _ _ _ ?_ (by decide)
        decide
      · simp only [rowGet_setKey, String.reduceEq, reduceIte]
        exact ⟨by decide, by decide, by decide, by decide, by decide, by decide, by decide⟩

/-- Claim C8 counterexample: with `uen` and `hiringOrganization` absent,
Fastjobs stores the string "none" and the empty string, not the no-value
marker the claim requires for absent data. -/
theorem C8_schema_cex :
    rowGet (FJtransform_row fjX) "uen" = some (Value.vstr (str "none")) ∧
    rowGet (FJtransform_row fjX) "company_name" = some (Value.vstr (str "")) ∧
    Value.vstr (str "none") ≠ Value.vnone ∧
    Value.vstr (str "") ≠ Value.vnone :=
  ⟨by decide, by decide, by decide, by decide⟩

theorem C8_schema_witness :
    rowKeys c6pair.1 = HEADERS ∧ rowKeys jcRow = HEADERS :=
  ⟨C8_schema.2.2.1 rec6 sc6 c6pair.1 c6pair.2 (by decide),
   (C8_schema.2.2.2.2.2 jcY jcRow (by decide)).1⟩

theorem C5_engineering_witness :
    is_engineering (str "Software Engineer") (str "") = false :=
  (C5_engineering.1 (str "Software Engineer") (str "")).1 (Or.inl (by decide))

end SgJobUtils
